import Mathlib

/-!
Shallow embedding of the retry package of hyperadev/lib (Go) and proofs of
the specification claims about it.

Modelling conventions:
- Go time.Duration (an int64 count of nanoseconds) is modelled as `Int`;
  where int64 overflow or saturation matters in the source, it is made
  explicit with `wrapAdd` (two-complement wraparound of addition, as Go
  integer addition does) and `satInt64` (clamping, as `time.Time.Sub` does).
- Go errors are modelled as an inductive tree: base errors, `fmt.Errorf`
  wrapping (whose Unwrap returns the wrapped error), and the packages own
  `permanentError` wrapper.
- The ambient clock and the random number generator are passed in as
  explicit oracle arguments (`now`, `r`).
- Mutexes and atomics serialize access in the source; the model is the
  sequential semantics they guarantee.
-/

namespace RetryLib

/-- Model of a Go error value: a base error, a `fmt.Errorf("...: %w", e)`
wrapper whose `Unwrap` yields `e`, or the retry package `permanentError`
wrapper whose `Unwrap` yields the wrapped error. -/
inductive GoError where
  | base : Nat → GoError
  | wrapf : Nat → GoError → GoError
  | permanent : GoError → GoError
deriving DecidableEq

/-- Source `PermanentError` (retry.go): wraps the given error to indicate a
permanent error that should not be retried. -/
def PermanentError (e : GoError) : GoError := GoError.permanent e

/-- The `Unwrap` method of each error type: base errors have no wrapped
error; both wrapper forms return the error they wrap. -/
def Unwrap : GoError → Option GoError
  | GoError.base _ => none
  | GoError.wrapf _ e => some e
  | GoError.permanent e => some e

/-- Model of `errors.As(err, &perm)` for target type `*permanentError`
followed by reading `perm.err`: walk the Unwrap chain from the outside in
and return the error wrapped by the first `permanentError` found, if any. -/
def asPermanent : GoError → Option GoError
  | GoError.base _ => none
  | GoError.wrapf _ e => asPermanent e
  | GoError.permanent e => some e

/-- The Unwrap chain of an error: the error itself followed by the chain of
its wrapped error (the list `errors.As` traverses). -/
def chain : GoError → List GoError
  | GoError.base n => [GoError.base n]
  | GoError.wrapf n e => GoError.wrapf n e :: chain e
  | GoError.permanent e => GoError.permanent e :: chain e

/-- Whether an error value is itself a `permanentError` wrapper node. -/
def isPermanentNode : GoError → Bool
  | GoError.permanent _ => true
  | _ => false

/-- Spec-side notion: the error chain contains a Permanent Failure wrapper. -/
def containsPermanent (e : GoError) : Bool :=
  (chain e).any isPermanentNode

/-- The engine treats an error as permanent exactly when `errors.As` finds a
`permanentError` in its chain. -/
def isPermanent (e : GoError) : Bool :=
  (asPermanent e).isSome

/-- Source `Stop` (backoff.go): the special duration value `-1` indicating
that no further retry attempts should be made. -/
def Stop : Int := -1

/-- Result of one engine run: success, a returned error, or the context
cancellation error (`ctx.Err()`). -/
inductive RetryResult where
  | ok : RetryResult
  | err : GoError → RetryResult
  | canceledErr : RetryResult
deriving DecidableEq

/-- Observable outcome of a run of the retry loop: the returned result, the
number of invocations of the operation, the sequence of errors passed to the
notify callback (empty calls when notify is nil change nothing observable),
and the final state of the backoff policy. -/
structure LoopOut (σ : Type) where
  res : RetryResult
  attempts : Nat
  notified : List GoError
  bstate : σ
deriving DecidableEq

/-- Source `retry` (retry.go): the retry loop. The operation is modelled as
`f : Nat → Option GoError` giving the outcome of its k-th invocation
(`none` = success); the backoff policy as a state machine `next` over state
type `σ`; the cancellation context as `canceled : Nat → Bool`, whether the
context is done during the post-attempt phase of iteration k (checked in
the Stop branch and raced against the wait timer). `fuel` bounds the number
of iterations modelled; `none` means the loop did not finish within `fuel`
iterations. `k` counts invocations already made, `acc` the notify calls so
far. -/
def retryAux {σ : Type} (f : Nat → Option GoError) (next : σ → Int × σ)
    (canceled : Nat → Bool) : Nat → Nat → List GoError → σ → Option (LoopOut σ)
  | 0, _, _, _ => none
  | fuel + 1, k, acc, s =>
    match f k with
    | none => some ⟨RetryResult.ok, k + 1, acc, s⟩
    | some e =>
      match asPermanent e with
      | some e0 => some ⟨RetryResult.err e0, k + 1, acc, s⟩
      | none =>
        let d := (next s).1
        let s' := (next s).2
        if d = Stop then
          some ⟨if canceled k then RetryResult.canceledErr else RetryResult.err e,
            k + 1, acc, s'⟩
        else
          if canceled k then some ⟨RetryResult.canceledErr, k + 1, acc ++ [e], s'⟩
          else retryAux f next canceled fuel (k + 1) (acc ++ [e]) s'

/-- Source `Retry`/`RetryNotify` entry point: run the loop from a fresh
invocation (no attempts made yet, no notifications). -/
def retry {σ : Type} (f : Nat → Option GoError) (next : σ → Int × σ)
    (canceled : Nat → Bool) (fuel : Nat) (s : σ) : Option (LoopOut σ) :=
  retryAux f next canceled fuel 0 [] s

/-- Source `ConstantBackoff` (backoff_constant.go). -/
structure ConstantBackoff where
  Interval : Int
deriving DecidableEq

/-- Source `ConstantBackoff.Next`: always returns the configured interval;
no state. -/
def ConstantBackoff.Next (b : ConstantBackoff) : Int × ConstantBackoff :=
  (b.Interval, b)

/-- Source `maxRetriesBackoff` (backoff.go): wraps a backoff strategy and
limits the number of retries. `attempts` models the atomic.Uint64 counter,
`maxRetries` the uint64 limit. -/
structure maxRetriesBackoff (σ : Type) where
  inner : σ
  attempts : Nat
  maxRetries : Nat
deriving DecidableEq

/-- Source `maxRetriesBackoff.Next`: increment the counter (uint64, hence
mod 2^64); once the new value reaches `maxRetries`, return Stop without
delegating; otherwise delegate to the wrapped backoff. -/
def maxRetriesBackoff.Next {σ : Type} (inext : σ → Int × σ)
    (b : maxRetriesBackoff σ) : Int × maxRetriesBackoff σ :=
  let a := (b.attempts + 1) % 2 ^ 64
  if b.maxRetries ≤ a then
    (Stop, ⟨b.inner, a, b.maxRetries⟩)
  else
    ((inext b.inner).1, ⟨(inext b.inner).2, a, b.maxRetries⟩)

/-- Source `WithMaxRetries`: wrap a backoff with a zeroed attempt counter. -/
def WithMaxRetries {σ : Type} (s : σ) (maxRetries : Nat) : maxRetriesBackoff σ :=
  ⟨s, 0, maxRetries⟩

/-- Smallest int64 value. -/
def int64Min : Int := -(2 ^ 63)

/-- Largest int64 value. -/
def int64Max : Int := 2 ^ 63 - 1

/-- Go `time.Time.Sub` clamps a difference that does not fit in an int64
duration to the maximum or minimum duration. -/
def satInt64 (x : Int) : Int := max int64Min (min int64Max x)

/-- Two-complement int64 addition: Go signed integer addition wraps around
on overflow. -/
def wrapAdd (a b : Int) : Int := (a + b + 2 ^ 63) % 2 ^ 64 - 2 ^ 63

/-- Truncation of a rational toward zero, as the Go conversion from float64
to an integer type does. -/
def truncRat (q : ℚ) : Int := if 0 ≤ q then ⌊q⌋ else ⌈q⌉

/-- Source `ExponentialBackoff` (backoff_exponential.go). Instants are
modelled as `Int` nanoseconds since the Go zero time instant (year 1), so
the zero `time.Time` is `0` and `IsZero` is comparison with `0`; realistic
clock readings exceed `int64Max` nanoseconds. The float64 fields and
arithmetic of the source (`Multiplier`, the growth comparison and product)
are modelled as exact rational arithmetic; for the configurations treated
below every float64 computation of the source is exact (all values and
products are integers below 2^53), so the rational model coincides with the
float64 one. `JitterPercent` exists in the source but is never read by
`Next`. The mutex is omitted: the model is the serialized semantics it
guarantees. -/
structure ExponentialBackoff where
  InitialInterval : Int
  MaxInterval : Int
  MaxElapsedTime : Int
  Multiplier : ℚ
  Jitter : Int
  JitterPercent : Nat
  next : Int
  startTime : Int
deriving DecidableEq

/-- Source `DefaultInitialInterval` (500ms in nanoseconds). -/
def DefaultInitialInterval : Int := 500 * 1000000

/-- Source `DefaultMaxInterval` (60s in nanoseconds). -/
def DefaultMaxInterval : Int := 60 * 1000000000

/-- Source `DefaultMaxElapsedTime` (15min in nanoseconds). -/
def DefaultMaxElapsedTime : Int := 15 * 60 * 1000000000

/-- Source `DefaultMultiplier`. -/
def DefaultMultiplier : ℚ := 3 / 2

/-- Source `DefaultJitter` (250ms in nanoseconds). -/
def DefaultJitter : Int := 250 * 1000000

/-- Source `DefaultExponentialBackoff`: default configuration; the `next`
and `startTime` fields start at their Go zero values, and `JitterPercent`
is not set by the constructor. -/
def DefaultExponentialBackoff : ExponentialBackoff :=
  ⟨DefaultInitialInterval, DefaultMaxInterval, DefaultMaxElapsedTime,
    DefaultMultiplier, DefaultJitter, 0, 0, 0⟩

/-- The value the source calls `b.next` after the lazy initialization
`if b.next == 0 { b.next = b.InitialInterval }`: the nominal (pre-jitter)
wait of the current call. -/
def nominalWait (b : ExponentialBackoff) : Int :=
  if b.next = 0 then b.InitialInterval else b.next

/-- The local `next` of the source after jitter: when `Jitter > 0`, add
`rand.Int64N(int64(b.Jitter)*2) - int64(b.Jitter)`. The random draw is the
oracle `r`; the generator output is its residue in `[0, 2*Jitter)`. The
addition is int64 addition. Assumes `2*Jitter` fits in int64 (otherwise the
source panics in `rand.Int64N`). -/
def jitteredWait (b : ExponentialBackoff) (r : Int) : Int :=
  if 0 < b.Jitter then wrapAdd (nominalWait b) (r % (2 * b.Jitter) - b.Jitter)
  else nominalWait b

/-- The growth step of the source, producing the stored `b.next` for the
following call: `if float64(b.next) >= float64(b.MaxInterval)/b.Multiplier`
snap to `MaxInterval`, else `b.next = time.Duration(float64(b.next) *
b.Multiplier)` (float64 arithmetic modelled as exact rational arithmetic,
conversion back to Int truncating toward zero). -/
def growStep (b : ExponentialBackoff) : Int :=
  if ((b.MaxInterval : ℚ) / b.Multiplier) ≤ ((nominalWait b : ℚ)) then b.MaxInterval
  else truncRat ((nominalWait b : ℚ) * b.Multiplier)

/-- Source `ExponentialBackoff.Next`. Faithful to the source order: the
elapsed time is `time.Since(b.startTime)` taken BEFORE the lazy
initialization of `startTime`, so on the first call it is measured from the
zero instant (and saturates at `int64Max` for realistic clocks); the Stop
check adds the post-jitter wait to it with wrapping int64 addition. `now`
is the clock reading of this call, `r` the random oracle. Returns the
returned duration and the updated receiver. -/
def ExponentialBackoff.Next (b : ExponentialBackoff) (now : Int) (r : Int) :
    Int × ExponentialBackoff :=
  let elapsed := satInt64 (now - b.startTime)
  let start := if b.startTime = 0 then now else b.startTime
  let next := jitteredWait b r
  (if 0 < b.MaxElapsedTime ∧ b.MaxElapsedTime < wrapAdd elapsed next then Stop
   else next,
   ⟨b.InitialInterval, b.MaxInterval, b.MaxElapsedTime, b.Multiplier,
     b.Jitter, b.JitterPercent, growStep b, start⟩)

/-- Source `ExponentialBackoff.Reset`: clear `next` to zero and `startTime`
to the zero instant. -/
def ExponentialBackoff.Reset (b : ExponentialBackoff) : ExponentialBackoff :=
  ⟨b.InitialInterval, b.MaxInterval, b.MaxElapsedTime, b.Multiplier,
    b.Jitter, b.JitterPercent, 0, 0⟩

/-- A freshly constructed instance with the same configuration as `b`: the
configuration fields are set and the internal fields hold their Go zero
values (as in the struct literals of the source and its tests). -/
def freshOf (b : ExponentialBackoff) : ExponentialBackoff :=
  ⟨b.InitialInterval, b.MaxInterval, b.MaxElapsedTime, b.Multiplier,
    b.Jitter, b.JitterPercent, 0, 0⟩

/-- The state of an ExponentialBackoff after `k` calls to `Next`, the calls
reading clocks `nows 0, nows 1, ...` and random draws `draws 0, ...`. -/
def expIter (b : ExponentialBackoff) (nows draws : Nat → Int) : Nat → ExponentialBackoff
  | 0 => b
  | k + 1 => ((expIter b nows draws k).Next (nows k) (draws k)).2

/-- The nominal (pre-jitter) wait of call `k` in such a run. -/
def nominalSeq (b : ExponentialBackoff) (nows draws : Nat → Int) (k : Nat) : Int :=
  nominalWait (expIter b nows draws k)

/-- The value actually returned by call `k` in such a run. -/
def returnedSeq (b : ExponentialBackoff) (nows draws : Nat → Int) (k : Nat) : Int :=
  ((expIter b nows draws k).Next (nows k) (draws k)).1

/-- Concrete always-failing transient operation: invocation `k` fails with
base error `k`. -/
def alwaysFail : Nat → Option GoError := fun k => some (GoError.base k)

/-- Concrete context that is never cancelled. -/
def noCancel : Nat → Bool := fun _ => false

/-- Concrete stateless inner backoff always returning 7ns. -/
def unitBackoff : Unit → Int × Unit := fun _ => ((7 : Int), ())

/-- Concrete all-zero oracle stream. -/
def zeroStream : Nat → Int := fun _ => 0

lemma alwaysFail_spec : ∀ j, ∃ e, alwaysFail j = some e ∧ asPermanent e = none :=
  fun j => ⟨GoError.base j, rfl, rfl⟩

lemma retryAux_succ_perm {σ : Type} (f : Nat → Option GoError)
    (next : σ → Int × σ) (canceled : Nat → Bool) (fuel k : Nat)
    (acc : List GoError) (s : σ) (e e0 : GoError)
    (he : f k = some e) (hp : asPermanent e = some e0) :
    retryAux f next canceled (fuel + 1) k acc s =
      some ⟨RetryResult.err e0, k + 1, acc, s⟩ := by
  simp [retryAux, he, hp]

lemma retryAux_succ_stop {σ : Type} (f : Nat → Option GoError)
    (next : σ → Int × σ) (canceled : Nat → Bool) (fuel k : Nat)
    (acc : List GoError) (s : σ) (e : GoError)
    (he : f k = some e) (hn : asPermanent e = none) (hstop : (next s).1 = Stop) :
    retryAux f next canceled (fuel + 1) k acc s =
      some ⟨if canceled k then RetryResult.canceledErr else RetryResult.err e,
        k + 1, acc, (next s).2⟩ := by
  simp [retryAux, he, hn, hstop]

lemma retryAux_succ_cont {σ : Type} (f : Nat → Option GoError)
    (next : σ → Int × σ) (canceled : Nat → Bool) (fuel k : Nat)
    (acc : List GoError) (s : σ) (e : GoError)
    (he : f k = some e) (hn : asPermanent e = none)
    (hd : (next s).1 ≠ Stop) (hc : canceled k = false) :
    retryAux f next canceled (fuel + 1) k acc s =
      retryAux f next canceled fuel (k + 1) (acc ++ [e]) (next s).2 := by
  simp [retryAux, he, hn, hd, hc]

/-- C5: for every operation, every policy and every point of the loop, if
an invocation returns an error whose chain contains a Permanent Failure
wrapper, the engine returns the wrapped (original) error immediately: one
more invocation only, the notify list unchanged, the backoff state returned
untouched, and the result is the same for every policy and cancellation
schedule (so next() is not consulted); instantiated at `k = 0` this is
exactly one attempt. -/
theorem c5_permanent_short_circuit {σ : Type} (f : Nat → Option GoError)
    (next : σ → Int × σ) (canceled : Nat → Bool) (fuel k : Nat)
    (acc : List GoError) (s : σ) (e e0 : GoError)
    (he : f k = some e) (hp : asPermanent e = some e0) :
    retryAux f next canceled (fuel + 1) k acc s =
      some ⟨RetryResult.err e0, k + 1, acc, s⟩ :=
  retryAux_succ_perm f next canceled fuel k acc s e e0 he hp

/-- Witness for C5: a permanent error on the very first call makes the
engine return the unwrapped error after exactly one attempt, with no
notification. -/
theorem c5_permanent_short_circuit_witness :
    retryAux (fun k => some (PermanentError (GoError.base k))) unitBackoff
        noCancel 1 0 [] () =
      some ⟨RetryResult.err (GoError.base 0), 1, [], ()⟩ :=
  c5_permanent_short_circuit (fun k => some (PermanentError (GoError.base k)))
    unitBackoff noCancel 0 0 [] () (PermanentError (GoError.base 0))
    (GoError.base 0) rfl rfl

/-- C6: whenever the policy returns Stop after a failed transient attempt,
the engine returns the cancellation error if the cancellation signal has
already fired and otherwise the error of the most recent invocation (never
a synthetic exhausted error), and the notify list is unchanged by this
terminal iteration. -/
theorem c6_stop_returns_last_error {σ : Type} (f : Nat → Option GoError)
    (next : σ → Int × σ) (canceled : Nat → Bool) (fuel k : Nat)
    (acc : List GoError) (s : σ) (e : GoError)
    (he : f k = some e) (hn : asPermanent e = none)
    (hstop : (next s).1 = Stop) :
    retryAux f next canceled (fuel + 1) k acc s =
      some ⟨if canceled k then RetryResult.canceledErr else RetryResult.err e,
        k + 1, acc, (next s).2⟩ :=
  retryAux_succ_stop f next canceled fuel k acc s e he hn hstop

/-- Witness for C6: with a policy that stops at once, an uncancelled run
returns the last operation error, and a cancelled run returns the
cancellation error; neither notifies. -/
theorem c6_stop_returns_last_error_witness :
    (retryAux alwaysFail (fun _ : Unit => (Stop, ())) noCancel 1 0 [] () =
      some ⟨RetryResult.err (GoError.base 0), 1, [], ()⟩)
    ∧ (retryAux alwaysFail (fun _ : Unit => (Stop, ())) (fun _ => true) 1 0 [] () =
      some ⟨RetryResult.canceledErr, 1, [], ()⟩) :=
  ⟨c6_stop_returns_last_error alwaysFail (fun _ : Unit => (Stop, ())) noCancel
      0 0 [] () (GoError.base 0) rfl rfl rfl,
    c6_stop_returns_last_error alwaysFail (fun _ : Unit => (Stop, ())) (fun _ => true)
      0 0 [] () (GoError.base 0) rfl rfl rfl⟩

/-- C8: unwrapping the result of `PermanentError e` yields exactly `e`, and
the engine check (`errors.As` for the permanent wrapper) recognizes an
error as permanent if and only if its Unwrap chain contains a Permanent
wrapper; errors not so wrapped are never treated as permanent. -/
theorem c8_permanent_roundtrip :
    (∀ e, Unwrap (PermanentError e) = some e)
    ∧ (∀ e, isPermanent e = true ↔ containsPermanent e = true) := by
  refine ⟨fun e => rfl, fun e => ?_⟩
  induction e with
  | base n => simp [isPermanent, asPermanent, containsPermanent, chain, isPermanentNode]
  | wrapf n e ih =>
      simpa [isPermanent, asPermanent, containsPermanent, chain, isPermanentNode] using ih
  | permanent e ih =>
      simp [isPermanent, asPermanent, containsPermanent, chain, isPermanentNode]

/-- C9: Reset restores an ExponentialBackoff to its pre-first-call state:
the interval field is cleared to zero and the start timestamp to the zero
instant, the result coincides with a freshly constructed instance with the
same configuration, and therefore the nominal (jitter-ignored) sequence of
subsequent Next values equals that of the fresh instance for every clock
and every random stream. -/
theorem c9_reset_fresh (b : ExponentialBackoff) :
    (b.Reset).next = 0 ∧ (b.Reset).startTime = 0 ∧ b.Reset = freshOf b
    ∧ ∀ (nows draws : Nat → Int) (k : Nat),
        nominalSeq b.Reset nows draws k = nominalSeq (freshOf b) nows draws k :=
  ⟨rfl, rfl, rfl, fun _ _ _ => rfl⟩

lemma maxRetriesNext_stop {σ : Type} (inext : σ → Int × σ) (s : σ)
    (a L : Nat) (ha : a + 1 < 2 ^ 64) (hL : L ≤ a + 1) :
    maxRetriesBackoff.Next inext ⟨s, a, L⟩ = (Stop, ⟨s, a + 1, L⟩) := by
  have hmod : (a + 1) % 18446744073709551616 = a + 1 := Nat.mod_eq_of_lt (by omega)
  simp [maxRetriesBackoff.Next, hmod, hL]

lemma maxRetriesNext_delegate {σ : Type} (inext : σ → Int × σ) (s : σ)
    (a L : Nat) (ha : a + 1 < 2 ^ 64) (hL : ¬ L ≤ a + 1) :
    maxRetriesBackoff.Next inext ⟨s, a, L⟩ =
      ((inext s).1, ⟨(inext s).2, a + 1, L⟩) := by
  have hmod : (a + 1) % 18446744073709551616 = a + 1 := Nat.mod_eq_of_lt (by omega)
  simp [maxRetriesBackoff.Next, hmod, hL]

/-- Running the loop against an always-failing transient operation with an
uncancelled context and a MaxRetries-wrapped policy whose inner policy
never returns Stop along the run (invariant `P`): starting from counter
value `a` with `n = L - a` more invocations to go, the loop makes exactly
`n` further invocations and returns the error of the last one. -/
lemma maxRetries_exhaust_aux {σ : Type} (inext : σ → Int × σ) (P : σ → Prop)
    (hPstep : ∀ t, P t → P (inext t).2)
    (hPstop : ∀ t, P t → (inext t).1 ≠ Stop)
    (f : Nat → Option GoError)
    (hf : ∀ j, ∃ e, f j = some e ∧ asPermanent e = none)
    (canceled : Nat → Bool) (hc : ∀ j, canceled j = false)
    (L : Nat) (hL : L < 2 ^ 64) :
    ∀ n, 0 < n → ∀ a, a + n = L → ∀ fuel, n ≤ fuel →
      ∀ k (acc : List GoError) (s : σ), P s →
      ∃ e, f (k + n - 1) = some e ∧
        (retryAux f (maxRetriesBackoff.Next inext) canceled fuel k acc
            ⟨s, a, L⟩).map (fun o => (o.res, o.attempts)) =
          some (RetryResult.err e, k + n) := by
  intro n
  induction n with
  | zero => intro h; exact absurd h (lt_irrefl 0)
  | succ m ih =>
    intro _ a ha fuel hfuel k acc s hs
    obtain ⟨fuel2, rfl⟩ : ∃ fuel2, fuel = fuel2 + 1 := ⟨fuel - 1, by omega⟩
    obtain ⟨e, he, hn⟩ := hf k
    by_cases hm : m = 0
    · subst hm
      have hstop := maxRetriesNext_stop inext s a L (by omega) (by omega)
      have hstop1 : (maxRetriesBackoff.Next inext ⟨s, a, L⟩).1 = Stop := by
        rw [hstop]
      rw [retryAux_succ_stop f _ canceled fuel2 k acc _ e he hn hstop1]
      exact ⟨e, by simpa using he, by simp [hc k]⟩
    · have hdel := maxRetriesNext_delegate inext s a L (by omega) (by omega)
      have hd : (maxRetriesBackoff.Next inext ⟨s, a, L⟩).1 ≠ Stop := by
        rw [hdel]; exact hPstop s hs
      rw [retryAux_succ_cont f _ canceled fuel2 k acc _ e he hn hd (hc k)]
      have h2 : (maxRetriesBackoff.Next inext ⟨s, a, L⟩).2 =
          (⟨(inext s).2, a + 1, L⟩ : maxRetriesBackoff σ) := by rw [hdel]
      rw [h2]
      obtain ⟨e2, he2, hmap⟩ := ih (by omega) (a + 1) (by omega) fuel2 (by omega)
        (k + 1) (acc ++ [e]) (inext s).2 (hPstep s hs)
      refine ⟨e2, ?_, ?_⟩
      · have : k + 1 + m - 1 = k + (m + 1) - 1 := by omega
        rwa [this] at he2
      · have : k + 1 + m = k + (m + 1) := by omega
        rwa [this] at hmap

/-- C1 counterexample: with `withMaxRetries(Constant(1ms), 5)` against an
always-failing transient operation with no cancellation, the engine makes
exactly 5 invocations, not 5 + 1 = 6 as the claim states: the 5th call to
next() already returns Stop since the incremented counter reaches the
limit. -/
theorem c1_counterexample :
    (retry alwaysFail (maxRetriesBackoff.Next ConstantBackoff.Next) noCancel 10
        (WithMaxRetries (ConstantBackoff.mk 1000000) 5)).map (fun o => o.attempts) = some 5
    ∧ (retry alwaysFail (maxRetriesBackoff.Next ConstantBackoff.Next) noCancel 10
        (WithMaxRetries (ConstantBackoff.mk 1000000) 5)).map (fun o => o.attempts)
      ≠ some (5 + 1) := by
  constructor
  · rfl
  · decide

/-- C1 (amended): for every inner policy that never returns Stop along the
run, every limit `L` with `1 ≤ L < 2^64` and every always-failing transient
operation with no cancellation, the engine with `withMaxRetries(inner, L)`
performs exactly `L` invocations of the operation (the initial attempt plus
`L - 1` retries) before the policy returns Stop. -/
theorem c1_amended {σ : Type} (inext : σ → Int × σ)
    (hinner : ∀ t : σ, (inext t).1 ≠ Stop)
    (f : Nat → Option GoError)
    (hf : ∀ j, ∃ e, f j = some e ∧ asPermanent e = none)
    (canceled : Nat → Bool) (hc : ∀ j, canceled j = false)
    (L : Nat) (hL1 : 1 ≤ L) (hL : L < 2 ^ 64)
    (fuel : Nat) (hfuel : L ≤ fuel) (s : σ) :
    (retry f (maxRetriesBackoff.Next inext) canceled fuel
        (WithMaxRetries s L)).map (fun o => o.attempts) = some L := by
  obtain ⟨e, -, hmap⟩ := maxRetries_exhaust_aux inext (fun _ => True)
    (fun _ _ => trivial) (fun t _ => hinner t) f hf canceled hc L hL
    L (by omega) 0 (by omega) fuel hfuel 0 [] s trivial
  unfold retry WithMaxRetries
  cases hres : retryAux f (maxRetriesBackoff.Next inext) canceled fuel 0 []
      (⟨s, 0, L⟩ : maxRetriesBackoff σ) with
  | none => rw [hres] at hmap; simp at hmap
  | some o =>
      rw [hres] at hmap
      simp at hmap ⊢
      omega

/-- Witness for C1 (amended): limit 3 with a 7ns inner policy gives exactly
3 invocations. -/
theorem c1_amended_witness :
    (retry alwaysFail (maxRetriesBackoff.Next unitBackoff) noCancel 3
        (WithMaxRetries () 3)).map (fun o => o.attempts) = some 3 :=
  c1_amended unitBackoff (fun _ => by simp [unitBackoff, Stop]) alwaysFail alwaysFail_spec
    noCancel (fun _ => rfl) 3 (by omega) (by omega) 3 (by omega) ()

/-- C2: the engine with `withMaxRetries(Constant(1ms), 5)` against an
operation failing on every call with a transient error and no cancellation
invokes the operation exactly 5 times and returns the error produced by the
5th (last) invocation. -/
theorem c2_five_attempts (f : Nat → Option GoError)
    (hf : ∀ j, ∃ e, f j = some e ∧ asPermanent e = none)
    (canceled : Nat → Bool) (hc : ∀ j, canceled j = false)
    (fuel : Nat) (hfuel : 5 ≤ fuel) (e4 : GoError) (he4 : f 4 = some e4) :
    (retry f (maxRetriesBackoff.Next ConstantBackoff.Next) canceled fuel
        (WithMaxRetries (ConstantBackoff.mk 1000000) 5)).map
      (fun o => (o.res, o.attempts)) = some (RetryResult.err e4, 5) := by
  obtain ⟨e, he, hmap⟩ := maxRetries_exhaust_aux ConstantBackoff.Next
    (fun t => t.Interval = (1000000 : Int)) (fun t ht => ht)
    (fun t ht => by simp [ConstantBackoff.Next, ht, Stop])
    f hf canceled hc 5 (by omega) 5 (by omega) 0 (by omega) fuel hfuel
    0 [] (ConstantBackoff.mk 1000000) rfl
  have he5 : e = e4 := by
    rw [show (0 + 5 - 1 : Nat) = 4 by omega] at he
    rw [he4] at he
    exact (Option.some_inj.mp he).symm
  subst he5
  simpa [retry, WithMaxRetries] using hmap

/-- Witness for C2: the concrete always-failing operation yields 5 attempts
and the error of invocation index 4. -/
theorem c2_five_attempts_witness :
    (retry alwaysFail (maxRetriesBackoff.Next ConstantBackoff.Next) noCancel 10
        (WithMaxRetries (ConstantBackoff.mk 1000000) 5)).map
      (fun o => (o.res, o.attempts)) = some (RetryResult.err (GoError.base 4), 5) :=
  c2_five_attempts alwaysFail alwaysFail_spec noCancel (fun _ => rfl)
    10 (by omega) (GoError.base 4) rfl

/-- C10: for limits 0 and 1, the very first call to the MaxRetries next()
returns Stop without delegating to the inner policy (the result, and the
returned inner state, are independent of the inner policy and equal to the
original state), and the engine performs exactly one attempt against an
always-failing transient operation in both cases. -/
theorem c10_limit_zero_one {σ : Type} (inext : σ → Int × σ) (s : σ)
    (f : Nat → Option GoError)
    (hf : ∀ j, ∃ e, f j = some e ∧ asPermanent e = none)
    (canceled : Nat → Bool) (hc0 : canceled 0 = false) (fuel : Nat) (hfuel : 1 ≤ fuel) :
    maxRetriesBackoff.Next inext (WithMaxRetries s 0) = (Stop, ⟨s, 1, 0⟩)
    ∧ maxRetriesBackoff.Next inext (WithMaxRetries s 1) = (Stop, ⟨s, 1, 1⟩)
    ∧ (retry f (maxRetriesBackoff.Next inext) canceled fuel
        (WithMaxRetries s 0)).map (fun o => (o.res, o.attempts))
      = (f 0).map (fun e => (RetryResult.err e, 1))
    ∧ (retry f (maxRetriesBackoff.Next inext) canceled fuel
        (WithMaxRetries s 1)).map (fun o => (o.res, o.attempts))
      = (f 0).map (fun e => (RetryResult.err e, 1)) := by
  obtain ⟨fuel2, rfl⟩ : ∃ fuel2, fuel = fuel2 + 1 := ⟨fuel - 1, by omega⟩
  obtain ⟨e, he, hn⟩ := hf 0
  have h0 := maxRetriesNext_stop inext s 0 0 (by omega) (by omega)
  have h1 := maxRetriesNext_stop inext s 0 1 (by omega) (by omega)
  refine ⟨h0, h1, ?_, ?_⟩
  · rw [retry, retryAux_succ_stop f _ canceled fuel2 0 [] _ e he hn (by rw [WithMaxRetries, h0])]
    simp [he, hc0]
  · rw [retry, retryAux_succ_stop f _ canceled fuel2 0 [] _ e he hn (by rw [WithMaxRetries, h1])]
    simp [he, hc0]

/-- Witness for C10: with the concrete 7ns inner policy, limits 0 and 1
both stop at once without touching the inner state and both make exactly
one attempt. -/
theorem c10_limit_zero_one_witness :
    maxRetriesBackoff.Next unitBackoff (WithMaxRetries () 0) = (Stop, ⟨(), 1, 0⟩)
    ∧ maxRetriesBackoff.Next unitBackoff (WithMaxRetries () 1) = (Stop, ⟨(), 1, 1⟩)
    ∧ (retry alwaysFail (maxRetriesBackoff.Next unitBackoff) noCancel 1
        (WithMaxRetries () 0)).map (fun o => (o.res, o.attempts))
      = (alwaysFail 0).map (fun e => (RetryResult.err e, 1))
    ∧ (retry alwaysFail (maxRetriesBackoff.Next unitBackoff) noCancel 1
        (WithMaxRetries () 1)).map (fun o => (o.res, o.attempts))
      = (alwaysFail 0).map (fun e => (RetryResult.err e, 1)) :=
  c10_limit_zero_one unitBackoff () alwaysFail alwaysFail_spec noCancel rfl 1 (by omega)

lemma satInt64_eq (x : Int) (h1 : int64Min ≤ x) (h2 : x ≤ int64Max) :
    satInt64 x = x := by
  unfold satInt64 int64Min int64Max at *
  omega

lemma satInt64_top (x : Int) (h : int64Max ≤ x) : satInt64 x = int64Max := by
  unfold satInt64 int64Min int64Max at *
  omega

lemma wrapAdd_eq_of_bounds (a b : Int) (h1 : int64Min ≤ a + b) (h2 : a + b ≤ int64Max) :
    wrapAdd a b = a + b := by
  unfold wrapAdd int64Min int64Max at *
  rw [Int.emod_eq_of_lt (by omega) (by omega)]
  omega

lemma wrapAdd_max_pos (w : Int) (h1 : 0 < w) (h2 : w ≤ int64Max) :
    wrapAdd int64Max w = w - 1 - 2 ^ 63 := by
  unfold wrapAdd int64Max at *
  have h3 : 2 ^ 63 - 1 + w + 2 ^ 63 = w - 1 + 2 ^ 64 * 1 := by ring
  rw [h3, Int.add_mul_emod_self_left, Int.emod_eq_of_lt (by omega) (by omega)]

lemma jitter_delta_bounds (J r : Int) (hJ : 0 < J) :
    -J ≤ r % (2 * J) - J ∧ r % (2 * J) - J < J := by
  have h1 : 0 ≤ r % (2 * J) := Int.emod_nonneg r (by omega)
  have h2 : r % (2 * J) < 2 * J := Int.emod_lt_of_pos r (by omega)
  omega

lemma jitteredWait_close (b : ExponentialBackoff) (r : Int)
    (hJ0 : 0 ≤ b.Jitter)
    (h1 : int64Min ≤ nominalWait b - b.Jitter)
    (h2 : nominalWait b + b.Jitter ≤ int64Max) :
    |jitteredWait b r - nominalWait b| ≤ b.Jitter := by
  unfold jitteredWait
  by_cases hJ : 0 < b.Jitter
  · obtain ⟨hd1, hd2⟩ := jitter_delta_bounds b.Jitter r hJ
    unfold int64Min at h1
    unfold int64Max at h2
    have hw := wrapAdd_eq_of_bounds (nominalWait b) (r % (2 * b.Jitter) - b.Jitter)
      (by unfold int64Min; omega) (by unfold int64Max; omega)
    rw [if_pos hJ, hw, abs_le]
    omega
  · rw [if_neg hJ]
    simpa using hJ0

/-- Configuration of the C3 counterexample: initial interval 20min, max
interval 30min, max elapsed time 15min, multiplier 2, no jitter, fresh
state. -/
def c3cfg : ExponentialBackoff :=
  ⟨1200000000000, 1800000000000, 900000000000, 2, 0, 0, 0, 0⟩

/-- C3 counterexample: on the very first Next call of `c3cfg` (start
timestamp still the zero instant, max elapsed time positive), the elapsed
time since the loop start as the claim reads it is 0, and 0 plus the
post-jitter wait (20min) exceeds MaxElapsedTime (15min), so the claim
requires Stop; but the code measures elapsed from the zero instant before
initializing the start timestamp, the saturated elapsed plus the wait wraps
around int64, and the call returns the 20min wait instead of Stop. The
clock reading is a realistic one (about year 2026 in nanoseconds since
year 1). -/
theorem c3_counterexample :
    0 < c3cfg.MaxElapsedTime
    ∧ c3cfg.startTime = 0
    ∧ c3cfg.MaxElapsedTime < 0 + jitteredWait c3cfg 0
    ∧ (c3cfg.Next 63900000000000000000 0).1 = jitteredWait c3cfg 0
    ∧ (c3cfg.Next 63900000000000000000 0).1 ≠ Stop := by
  refine ⟨by decide, rfl, by decide, by decide, by decide⟩

/-- C3 (amended): for every ExponentialBackoff with MaxElapsedTime > 0, on
every call where the start timestamp is already set (every call after the
first), Next returns Stop exactly when the elapsed time since the loop
start plus the post-jitter computed wait exceeds MaxElapsedTime, and
otherwise returns the computed wait (stated for sums within the int64
range, where no wraparound occurs). On the very first call the elapsed
time is measured from the zero instant before the start timestamp is
initialized, so for a realistic clock it saturates at the maximal int64
duration, the sum wraps around to a negative value, and the call returns
the computed wait whenever that wait is positive, never Stop. -/
theorem c3_amended (b : ExponentialBackoff) (now r : Int)
    (hmet : 0 < b.MaxElapsedTime) :
    (b.startTime ≠ 0 →
      0 ≤ now - b.startTime →
      now - b.startTime ≤ int64Max →
      int64Min ≤ now - b.startTime + jitteredWait b r →
      now - b.startTime + jitteredWait b r ≤ int64Max →
      (b.Next now r).1 =
        if b.MaxElapsedTime < now - b.startTime + jitteredWait b r then Stop
        else jitteredWait b r)
    ∧ (b.startTime = 0 →
      int64Max ≤ now →
      0 < jitteredWait b r →
      jitteredWait b r ≤ int64Max →
      (b.Next now r).1 = jitteredWait b r) := by
  constructor
  · intro hst h0 h1 h2 h3
    have hsat : satInt64 (now - b.startTime) = now - b.startTime :=
      satInt64_eq _ (by unfold int64Min; omega) h1
    have hwrap : wrapAdd (now - b.startTime) (jitteredWait b r)
        = now - b.startTime + jitteredWait b r :=
      wrapAdd_eq_of_bounds _ _ h2 h3
    show (if 0 < b.MaxElapsedTime ∧
        b.MaxElapsedTime < wrapAdd (satInt64 (now - b.startTime)) (jitteredWait b r)
      then Stop else jitteredWait b r) = _
    rw [hsat, hwrap]
    by_cases hlt : b.MaxElapsedTime < now - b.startTime + jitteredWait b r
    · rw [if_pos ⟨hmet, hlt⟩, if_pos hlt]
    · rw [if_neg (fun hand => hlt hand.2), if_neg hlt]
  · intro hst hnow hw1 hw2
    have hsat : satInt64 (now - b.startTime) = int64Max := by
      rw [hst]
      exact satInt64_top (now - 0) (by omega)
    have hwrap : wrapAdd (satInt64 (now - b.startTime)) (jitteredWait b r)
        = jitteredWait b r - 1 - 2 ^ 63 := by
      rw [hsat]
      exact wrapAdd_max_pos (jitteredWait b r) hw1 hw2
    show (if 0 < b.MaxElapsedTime ∧
        b.MaxElapsedTime < wrapAdd (satInt64 (now - b.startTime)) (jitteredWait b r)
      then Stop else jitteredWait b r) = _
    rw [hwrap]
    have hneg : ¬ b.MaxElapsedTime < jitteredWait b r - 1 - 2 ^ 63 := by
      unfold int64Max at hw2
      omega
    rw [if_neg (fun hand => hneg hand.2)]

/-- A state of the C3 configuration family after some calls: start
timestamp set to 100ns, current interval 2000s, max elapsed time 15min. -/
def c3post : ExponentialBackoff :=
  ⟨500000000, 10000000000, 900000000000, 2, 0, 0, 2000000000000, 100⟩

/-- Witness for C3 (amended): a post-first call whose elapsed time plus
wait exceeds the ceiling returns Stop, and a realistic first call whose
wait exceeds the ceiling still returns the wait. -/
theorem c3_amended_witness :
    (c3post.Next 1000 0).1 = Stop
    ∧ (c3cfg.Next 63900000000000000000 0).1 = jitteredWait c3cfg 0 := by
  constructor
  · have h := (c3_amended c3post 1000 0 (by decide)).1
      (by decide) (by decide) (by decide) (by decide) (by decide)
    rw [h]
    decide
  · exact (c3_amended c3cfg 63900000000000000000 0 (by decide)).2
      rfl (by decide) (by decide) (by decide)

/-- Configuration of the C4 scenario: initial interval 500ms, max interval
10s, multiplier 2, jitter 250ms, no elapsed-time ceiling, fresh state. -/
def c4cfg : ExponentialBackoff :=
  ⟨500000000, 10000000000, 0, 2, 250000000, 0, 0, 0⟩

/-- The nominal (pre-jitter) interval of call `k` of the C4 scenario,
written as a pure integer recursion: start at 500ms; snap to 10s once the
interval reaches 10s / 2, else double. -/
def c4nom : Nat → Int
  | 0 => 500000000
  | k + 1 => if 5000000000 ≤ c4nom k then 10000000000 else 2 * c4nom k

lemma c4_invariant (nows draws : Nat → Int) : ∀ k,
    (expIter c4cfg nows draws k).MaxInterval = 10000000000
    ∧ (expIter c4cfg nows draws k).MaxElapsedTime = 0
    ∧ (expIter c4cfg nows draws k).Multiplier = 2
    ∧ (expIter c4cfg nows draws k).Jitter = 250000000
    ∧ nominalWait (expIter c4cfg nows draws k) = c4nom k
    ∧ 500000000 ≤ c4nom k ∧ c4nom k ≤ 10000000000 := by
  intro k
  induction k with
  | zero => exact ⟨rfl, rfl, rfl, rfl, rfl, by decide, by decide⟩
  | succ k ih =>
    obtain ⟨h1, h2, h3, h4, h5, h6, h7⟩ := ih
    have hgrow : growStep (expIter c4cfg nows draws k) = c4nom (k + 1) := by
      unfold growStep
      rw [h1, h3, h5]
      have hdiv : ((10000000000 : Int) : ℚ) / 2 = ((5000000000 : Int) : ℚ) := by
        norm_num
      simp only [hdiv, Int.cast_le]
      rw [c4nom]
      by_cases hc : (5000000000 : Int) ≤ c4nom k
      · rw [if_pos hc, if_pos hc]
      · rw [if_neg hc, if_neg hc]
        have hcast : ((c4nom k : Int) : ℚ) * 2 = ((2 * c4nom k : Int) : ℚ) := by
          push_cast
          ring
        rw [hcast]
        unfold truncRat
        rw [if_pos (by exact_mod_cast (by omega : (0 : Int) ≤ 2 * c4nom k))]
        exact Int.floor_intCast _
    have hbounds : 500000000 ≤ c4nom (k + 1) ∧ c4nom (k + 1) ≤ 10000000000 := by
      rw [c4nom]
      by_cases hc : (5000000000 : Int) ≤ c4nom k
      · rw [if_pos hc]
        omega
      · rw [if_neg hc]
        omega
    have hstate : expIter c4cfg nows draws (k + 1) =
        ((expIter c4cfg nows draws k).Next (nows k) (draws k)).2 := rfl
    refine ⟨?_, ?_, ?_, ?_, ?_, hbounds.1, hbounds.2⟩
    · rw [hstate]; show (expIter c4cfg nows draws k).MaxInterval = _; exact h1
    · rw [hstate]; show (expIter c4cfg nows draws k).MaxElapsedTime = _; exact h2
    · rw [hstate]; show (expIter c4cfg nows draws k).Multiplier = _; exact h3
    · rw [hstate]; show (expIter c4cfg nows draws k).Jitter = _; exact h4
    · rw [hstate]
      show (if growStep (expIter c4cfg nows draws k) = 0
          then (expIter c4cfg nows draws k).InitialInterval
          else growStep (expIter c4cfg nows draws k)) = c4nom (k + 1)
      rw [hgrow, if_neg (by omega)]

lemma c4nom_ge5 : ∀ m, c4nom (5 + m) = 10000000000 := by
  intro m
  induction m with
  | zero => decide
  | succ m ih =>
    show c4nom ((5 + m) + 1) = _
    rw [c4nom, ih]
    decide

/-- C4: for the ExponentialBackoff with InitialInterval 500ms, MaxInterval
10s, Multiplier 2, Jitter 250ms and no elapsed ceiling, the nominal
(pre-jitter) values of successive Next calls are 500ms, 1s, 2s, 4s, 8s and
then 10s on every later call (clamped at MaxInterval by the snap rule), and
every actually returned value differs from the nominal value by at most the
Jitter, for every clock and every random stream. -/
theorem c4_exponential_sequence (nows draws : Nat → Int) :
    (nominalSeq c4cfg nows draws 0 = 500000000
      ∧ nominalSeq c4cfg nows draws 1 = 1000000000
      ∧ nominalSeq c4cfg nows draws 2 = 2000000000
      ∧ nominalSeq c4cfg nows draws 3 = 4000000000
      ∧ nominalSeq c4cfg nows draws 4 = 8000000000)
    ∧ (∀ k, 5 ≤ k → nominalSeq c4cfg nows draws k = 10000000000)
    ∧ (∀ k, |returnedSeq c4cfg nows draws k - nominalSeq c4cfg nows draws k|
        ≤ 250000000) := by
  have hnom : ∀ k, nominalSeq c4cfg nows draws k = c4nom k :=
    fun k => (c4_invariant nows draws k).2.2.2.2.1
  refine ⟨⟨?_, ?_, ?_, ?_, ?_⟩, ?_, ?_⟩
  · rw [hnom]; decide
  · rw [hnom]; decide
  · rw [hnom]; decide
  · rw [hnom]; decide
  · rw [hnom]; decide
  · intro k hk
    obtain ⟨m, rfl⟩ := Nat.exists_eq_add_of_le hk
    rw [hnom]
    exact c4nom_ge5 m
  · intro k
    obtain ⟨h1, h2, h3, h4, h5, h6, h7⟩ := c4_invariant nows draws k
    have hret : returnedSeq c4cfg nows draws k =
        jitteredWait (expIter c4cfg nows draws k) (draws k) := by
      unfold returnedSeq ExponentialBackoff.Next
      rw [h2]
      simp
    have hclose := jitteredWait_close (expIter c4cfg nows draws k) (draws k)
      (by rw [h4]; omega)
      (by rw [h4, h5]; unfold int64Min; omega)
      (by rw [h4, h5]; unfold int64Max; omega)
    rw [h4] at hclose
    rw [hret]
    unfold nominalSeq
    exact hclose

/-- Witness for C4: with the all-zero clock and random stream, the nominal
value of call 7 is 10s and the returned value of call 3 is within 250ms of
the nominal one. -/
theorem c4_exponential_sequence_witness :
    nominalSeq c4cfg zeroStream zeroStream 7 = 10000000000
    ∧ |returnedSeq c4cfg zeroStream zeroStream 3
        - nominalSeq c4cfg zeroStream zeroStream 3| ≤ 250000000 :=
  ⟨(c4_exponential_sequence zeroStream zeroStream).2.1 7 (by omega),
    (c4_exponential_sequence zeroStream zeroStream).2.2 3⟩

/-- Configuration of the C7 counterexample: initial interval 1ms, jitter
250ms, no elapsed ceiling, fresh state. -/
def c7cfg : ExponentialBackoff :=
  ⟨1000000, 10000000000, 0, 2, 250000000, 0, 0, 0⟩

/-- C7 counterexample: an ExponentialBackoff whose Jitter (250ms) exceeds
its current nominal interval (1ms) can return a negative duration that is
not the Stop sentinel: with random draw 0 the first call returns -249ms. -/
theorem c7_counterexample :
    (c7cfg.Next 0 0).1 = -249000000
    ∧ (c7cfg.Next 0 0).1 < 0
    ∧ (c7cfg.Next 0 0).1 ≠ Stop := by
  refine ⟨by decide, by decide, by decide⟩

/-- C7 (amended): Constant returns exactly its configured interval (hence
a non-negative value whenever configured non-negative); MaxRetries returns
Stop or the inner value unchanged; Exponential returns Stop or the
jittered wait, and the jittered wait is non-negative whenever the Jitter
does not exceed the current nominal interval (and that interval is in the
int64 range) — but, as the counterexample shows, it can be negative when
the Jitter exceeds the nominal interval. -/
theorem c7_amended :
    (∀ b : ConstantBackoff, (ConstantBackoff.Next b).1 = b.Interval)
    ∧ (∀ (σ : Type) (inext : σ → Int × σ) (b : maxRetriesBackoff σ),
        (maxRetriesBackoff.Next inext b).1 = Stop
        ∨ (maxRetriesBackoff.Next inext b).1 = (inext b.inner).1)
    ∧ (∀ (b : ExponentialBackoff) (now r : Int),
        (b.Next now r).1 = Stop ∨ (b.Next now r).1 = jitteredWait b r)
    ∧ (∀ (b : ExponentialBackoff) (r : Int),
        0 ≤ b.Jitter → b.Jitter ≤ nominalWait b → nominalWait b ≤ 2 ^ 62 →
        0 ≤ jitteredWait b r) := by
  refine ⟨fun b => rfl, ?_, ?_, ?_⟩
  · intro σ inext b
    unfold maxRetriesBackoff.Next
    by_cases hc : b.maxRetries ≤ (b.attempts + 1) % 2 ^ 64
    · rw [if_pos hc]
      exact Or.inl rfl
    · rw [if_neg hc]
      exact Or.inr rfl
  · intro b now r
    have hfst : (b.Next now r).1 =
        if 0 < b.MaxElapsedTime
            ∧ b.MaxElapsedTime < wrapAdd (satInt64 (now - b.startTime)) (jitteredWait b r)
        then Stop else jitteredWait b r := rfl
    rw [hfst]
    by_cases hc : 0 < b.MaxElapsedTime
        ∧ b.MaxElapsedTime < wrapAdd (satInt64 (now - b.startTime)) (jitteredWait b r)
    · rw [if_pos hc]
      exact Or.inl rfl
    · rw [if_neg hc]
      exact Or.inr rfl
  · intro b r hJ0 hJle hbound
    unfold jitteredWait
    by_cases hJ : 0 < b.Jitter
    · obtain ⟨hd1, hd2⟩ := jitter_delta_bounds b.Jitter r hJ
      rw [if_pos hJ, wrapAdd_eq_of_bounds (nominalWait b) (r % (2 * b.Jitter) - b.Jitter)
        (by unfold int64Min; omega) (by unfold int64Max; omega)]
      omega
    · rw [if_neg hJ]
      omega

/-- Witness for C7 (amended): the default exponential configuration (500ms
initial interval, 250ms jitter) has a non-negative jittered wait for draw
123. -/
theorem c7_amended_witness :
    0 ≤ jitteredWait DefaultExponentialBackoff 123 :=
  c7_amended.2.2.2 DefaultExponentialBackoff 123 (by decide) (by decide) (by decide)

end RetryLib
